import Mathlib

/-!
Shallow embedding of `potatoSlave/slave/slave.go` (package `slave`): the
typed key-value storage engine, its nine command handlers, the TTL reaper
sweep, command dispatch, and the no-workers admission branch.

Modelling conventions:
* Go `time.Time` and `time.Duration` become `Nat`; `t.Before(u)` is `t < u`
  and `time.Now().Add(ttl)` is `now + ttl`.  Each handler receives the
  current time `now` explicitly.
* A Go `map` becomes an association list with Go map semantics
  (`lookupA` / `insertA` / `eraseA`); reading a missing (or nil) map yields
  the zero value, assignment replaces in place.
* The handlers are sequential functions `state → response × state`; the
  mutex serialises every handler body in the source, so each handler is
  one atomic step.
* `var response ResponseMessage` is the zero value `zeroResponse`.
-/

/-- Association-list lookup with Go map read semantics: first (unique) match. -/
def lookupA {α : Type} : List (String × α) → String → Option α
  | [], _ => none
  | (k', v') :: t, k => if k' = k then some v' else lookupA t k

/-- Association-list insert with Go map assignment semantics:
replace the value in place when the key is present, else add the pair. -/
def insertA {α : Type} : List (String × α) → String → α → List (String × α)
  | [], k, v => [(k, v)]
  | (k', v') :: t, k, v => if k' = k then (k, v) :: t else (k', v') :: insertA t k v

/-- Association-list delete with Go `delete(m, k)` semantics. -/
def eraseA {α : Type} : List (String × α) → String → List (String × α)
  | [], _ => []
  | (k', v') :: t, k => if k' = k then t else (k', v') :: eraseA t k

/-- Modelled from the spec: the `potat` tagged union (its declaration and the
`pstring`/`plist`/`pmap` implementations are in a repository file that is not
under `src/`).  §3: "Entry: a tagged union of {StringValue, ListValue,
MapValue} plus an absolute expiration timestamp (death time)". -/
inductive potat : Type
  | pstring (content : String) (timeOfDeath : Nat)
  | plist (list : List String) (timeOfDeath : Nat)
  | pmap (ourmap : List (String × String)) (timeOfDeath : Nat)
  deriving DecidableEq, Repr

/-- Modelled from the spec: `deathTime()` capability of every variant (§9);
`slave.go` uses it as `getTimeOfDeath()` in the reaper. -/
def potat.getTimeOfDeath : potat → Nat
  | potat.pstring _ t => t
  | potat.plist _ t => t
  | potat.pmap _ t => t

/-- Modelled from the spec: `getContent(selector)`, §4.4 table.
String: return content (selector ignored).  List: selector is a decimal
index, error if unparsable or out of range.  Map: selector is a sub-key,
error if absent.  `none` models a non-nil Go error. -/
def potat.getContent : potat → String → Option String
  | potat.pstring c _, _ => some c
  | potat.plist l _, sel =>
      match sel.toNat? with
      | some i => l[i]?
      | none => none
  | potat.pmap m _, sel => lookupA m sel

/-- Modelled from the spec: `setContent(value, selector)`, §4.4 table
(argument order as at the call sites in `slave.go`).
String: replace content.  List: selector `-1` appends, otherwise overwrite
at the parsed index, error if unparsable or out of range.  Map: insert or
overwrite the sub-key unconditionally.  In-place mutation never touches
the death time (§3 invariants). -/
def potat.setContent : potat → String → String → Option potat
  | potat.pstring _ t, v, _ => some (potat.pstring v t)
  | potat.plist l t, v, sel =>
      if sel = "-1" then some (potat.plist (l ++ [v]) t)
      else
        match sel.toNat? with
        | some i => if i < l.length then some (potat.plist (l.set i v) t) else none
        | none => none
  | potat.pmap m t, v, sel => some (potat.pmap (insertA m sel v) t)

/-- One user's key→Entry mapping (`map[string]potat`). -/
abbrev Keyspace : Type := List (String × potat)

/-- The nested storage `map[string]map[string]potat`. -/
abbrev Storage : Type := List (String × Keyspace)

/-- Go read `s.storage[u]`: a missing user reads as the nil (empty) map. -/
def getKS (st : Storage) (u : String) : Keyspace := (lookupA st u).getD []

/-- Go nested assignment `s.storage[u][k] = v`.  (In Go this would panic if
`u` had no keyspace; `authConnection` creates the keyspace before any
handler runs, so on every reachable state the two coincide.) -/
def setInKS (st : Storage) (u k : String) (v : potat) : Storage :=
  insertA st u (insertA (getKS st u) k v)

/-- Go nested `delete(s.storage[u], k)`: a no-op when `u` has no keyspace
(deleting from a nil map is a no-op). -/
def delInKS (st : Storage) (u k : String) : Storage :=
  match lookupA st u with
  | none => st
  | some ks => insertA st u (eraseA ks k)

/-- Structure `CommandMessage` from `slave.go`. -/
structure CommandMessage : Type where
  Name : String
  Arguments : List String
  TTL : Nat
  deriving DecidableEq, Repr

/-- Structure `ResponseMessage` from `slave.go`. -/
structure ResponseMessage : Type where
  Code : Nat
  StatusMessage : String
  Value : String
  deriving DecidableEq, Repr

/-- Go zero value `var response ResponseMessage`. -/
def zeroResponse : ResponseMessage := { Code := 0, StatusMessage := "", Value := "" }

/-- Status codes from the `iota` block in `slave.go`. -/
def _OK : Nat := 0

def _WT : Nat := 1

def _NK : Nat := 2

def _WA : Nat := 3

def _NW : Nat := 4

/-- The `statusMessages` map from `slave.go`; an unknown code reads as the
zero value `""`. -/
def statusMessages (code : Nat) : String :=
  if code = _OK then "OK"
  else if code = _WT then "Object stored at the key is of different type"
  else if code = _NK then "Key doesn't exist"
  else if code = _WA then "Wrong call arguments"
  else if code = _NW then "There are no available workers on the server"
  else ""

/-- Function `setStatus` from `slave.go` (functional form of the pointer mutation). -/
def setStatus (mes : ResponseMessage) (code : Nat) : ResponseMessage :=
  { mes with Code := code, StatusMessage := statusMessages code }

/-- The slave's state visible to the handlers: the storage and the default
TTL configuration value. -/
structure PotatoSlave : Type where
  storage : Storage
  DEFAULTTTL : Nat
  deriving DecidableEq

/-- Read of `mes.Arguments[i]`, done after the arity check has bounded `i`. -/
def arg (mes : CommandMessage) (i : Nat) : String := mes.Arguments.getD i ""

/-- The `del` handler (slave.go:180). -/
def PotatoSlave.del (s : PotatoSlave) (now : Nat) (userID : String)
    (mes : CommandMessage) : ResponseMessage × PotatoSlave :=
  if mes.Arguments.length ≠ 1 then
    (setStatus zeroResponse _WA, s)
  else
    (setStatus zeroResponse _OK,
      { s with storage := delInKS s.storage userID (arg mes 0) })

/-- The `keys` handler (slave.go:198).  Note the source iterates
`s.storage["user"]`, not `s.storage[userID]`. -/
def PotatoSlave.keys (s : PotatoSlave) (now : Nat) (userID : String)
    (mes : CommandMessage) : ResponseMessage × PotatoSlave :=
  if mes.Arguments.length ≠ 0 then
    (setStatus zeroResponse _WA, s)
  else
    let ans := (getKS s.storage "user").foldl
      (fun acc p => acc ++ "'" ++ p.1 ++ "',") ""
    (setStatus { zeroResponse with Value := ans } _OK, s)

/-- The `get` handler (slave.go:223). -/
def PotatoSlave.get (s : PotatoSlave) (now : Nat) (userID : String)
    (mes : CommandMessage) : ResponseMessage × PotatoSlave :=
  if mes.Arguments.length ≠ 1 then
    (setStatus zeroResponse _WA, s)
  else
    match lookupA (getKS s.storage userID) (arg mes 0) with
    | some (potat.pstring c t) =>
        (setStatus
          { zeroResponse with
            Value := ((potat.pstring c t).getContent "").getD "" } _OK, s)
    | some _ => (setStatus zeroResponse _WT, s)
    | none => (setStatus zeroResponse _NK, s)

/-- The `set` handler (slave.go:252): delete whatever is there, then store a
fresh `pstring` with death time `now + ttl`. -/
def PotatoSlave.set (s : PotatoSlave) (now : Nat) (userID : String)
    (mes : CommandMessage) : ResponseMessage × PotatoSlave :=
  if mes.Arguments.length ≠ 2 then
    (setStatus zeroResponse _WA, s)
  else
    let st1 := delInKS s.storage userID (arg mes 0)
    let ttl := if mes.TTL ≠ 0 then mes.TTL else s.DEFAULTTTL
    (setStatus zeroResponse _OK,
      { s with
        storage := setInKS st1 userID (arg mes 0)
          (potat.pstring (arg mes 1) (now + ttl)) })

/-- The `lpush` handler (slave.go:289): append in place when a list is already
there (error ignored by the source), otherwise store a fresh one-element
list — silently replacing any non-list entry. -/
def PotatoSlave.lpush (s : PotatoSlave) (now : Nat) (userID : String)
    (mes : CommandMessage) : ResponseMessage × PotatoSlave :=
  if mes.Arguments.length ≠ 2 then
    (setStatus zeroResponse _WA, s)
  else
    match lookupA (getKS s.storage userID) (arg mes 0) with
    | some (potat.plist l t) =>
        let updated := ((potat.plist l t).setContent (arg mes 1) "-1").getD
          (potat.plist l t)
        (setStatus zeroResponse _OK,
          { s with storage := setInKS s.storage userID (arg mes 0) updated })
    | _ =>
        let ttl := if mes.TTL ≠ 0 then mes.TTL else s.DEFAULTTTL
        (setStatus zeroResponse _OK,
          { s with
            storage := setInKS s.storage userID (arg mes 0)
              (potat.plist [arg mes 1] (now + ttl)) })

/-- The `lset` handler (slave.go:339). -/
def PotatoSlave.lset (s : PotatoSlave) (now : Nat) (userID : String)
    (mes : CommandMessage) : ResponseMessage × PotatoSlave :=
  if mes.Arguments.length ≠ 3 then
    (setStatus zeroResponse _WA, s)
  else
    match lookupA (getKS s.storage userID) (arg mes 0) with
    | some (potat.plist l t) =>
        match (potat.plist l t).setContent (arg mes 2) (arg mes 1) with
        | some updated =>
            (setStatus zeroResponse _OK,
              { s with storage := setInKS s.storage userID (arg mes 0) updated })
        | none => (setStatus zeroResponse _WA, s)
    | some _ => (setStatus zeroResponse _WT, s)
    | none => (setStatus zeroResponse _NK, s)

/-- The `lget` handler (slave.go:375). -/
def PotatoSlave.lget (s : PotatoSlave) (now : Nat) (userID : String)
    (mes : CommandMessage) : ResponseMessage × PotatoSlave :=
  if mes.Arguments.length ≠ 2 then
    (setStatus zeroResponse _WA, s)
  else
    match lookupA (getKS s.storage userID) (arg mes 0) with
    | some (potat.plist l t) =>
        match (potat.plist l t).getContent (arg mes 1) with
        | some content =>
            (setStatus { zeroResponse with Value := content } _OK, s)
        | none => (setStatus zeroResponse _WA, s)
    | some _ => (setStatus zeroResponse _WT, s)
    | none => (setStatus zeroResponse _NK, s)

/-- The `hget` handler (slave.go:411). -/
def PotatoSlave.hget (s : PotatoSlave) (now : Nat) (userID : String)
    (mes : CommandMessage) : ResponseMessage × PotatoSlave :=
  if mes.Arguments.length ≠ 2 then
    (setStatus zeroResponse _WA, s)
  else
    match lookupA (getKS s.storage userID) (arg mes 0) with
    | some (potat.pmap m t) =>
        match (potat.pmap m t).getContent (arg mes 1) with
        | some content =>
            (setStatus { zeroResponse with Value := content } _OK, s)
        | none => (setStatus zeroResponse _WA, s)
    | some _ => (setStatus zeroResponse _WT, s)
    | none => (setStatus zeroResponse _NK, s)

/-- The `hset` handler (slave.go:443): field-set in place when a map is already
there; otherwise store a fresh map — silently replacing any non-map entry.
The creation path of the source sets no status (the response stays the zero
value) and builds the literal `map[string]string{Arguments[2]: Arguments[1]}`,
both reproduced here exactly. -/
def PotatoSlave.hset (s : PotatoSlave) (now : Nat) (userID : String)
    (mes : CommandMessage) : ResponseMessage × PotatoSlave :=
  if mes.Arguments.length ≠ 3 then
    (setStatus zeroResponse _WA, s)
  else
    match lookupA (getKS s.storage userID) (arg mes 0) with
    | some (potat.pmap m t) =>
        match (potat.pmap m t).setContent (arg mes 2) (arg mes 1) with
        | some updated =>
            (setStatus zeroResponse _OK,
              { s with storage := setInKS s.storage userID (arg mes 0) updated })
        | none => (setStatus zeroResponse _WA, s)
    | _ =>
        let ttl := if mes.TTL ≠ 0 then mes.TTL else s.DEFAULTTTL
        (zeroResponse,
          { s with
            storage := setInKS s.storage userID (arg mes 0)
              (potat.pmap [(arg mes 2, arg mes 1)] (now + ttl)) })

/-- One reaper pass over one user's keyspace (slave.go:73-78): delete the
entry iff `getTimeOfDeath().Before(now)`, i.e. iff the death time is
strictly before `now`. -/
def ttlSweepKS (now : Nat) (ks : Keyspace) : Keyspace :=
  ks.filter (fun p => decide (¬ (p.2.getTimeOfDeath < now)))

/-- One reaper sweep over the whole storage (the body of `ttlCheckRoutine`
under the lock).  The source re-reads `time.Now()` per entry; the sweep is
modelled at one instant `now`. -/
def ttlSweep (now : Nat) (st : Storage) : Storage :=
  st.map (fun p => (p.1, ttlSweepKS now p.2))

/-- The type of one entry of the `s.functions` dispatch table. -/
def Handler : Type :=
  PotatoSlave → Nat → String → CommandMessage → ResponseMessage × PotatoSlave

/-- The nine supported command names (§4.6). -/
def supportedCommands : List String :=
  ["del", "keys", "get", "set", "lpush", "lset", "lget", "hget", "hset"]

/-- Modelled from the spec: the `s.functions` table is populated in a
repository file that is not under `src/`; §4.6 fixes the supported names
as exactly `del`, `keys`, `get`, `set`, `lpush`, `lset`, `lget`, `hget`,
`hset`.  A Go map read of any other name yields the zero value `nil`,
modelled as `none`. -/
def functions (name : String) : Option Handler :=
  if name = "del" then some PotatoSlave.del
  else if name = "keys" then some PotatoSlave.keys
  else if name = "get" then some PotatoSlave.get
  else if name = "set" then some PotatoSlave.set
  else if name = "lpush" then some PotatoSlave.lpush
  else if name = "lset" then some PotatoSlave.lset
  else if name = "lget" then some PotatoSlave.lget
  else if name = "hget" then some PotatoSlave.hget
  else if name = "hset" then some PotatoSlave.hset
  else none

/-- The dispatch step `s.functions[mes.Name](username, mes)` of
`handleConnection` (slave.go:143).  The source calls the looked-up function
with no presence check; on an unknown name the Go map read yields a `nil`
function and the call faults (panics).  `none` models that fault: no
response is produced. -/
def dispatch (s : PotatoSlave) (now : Nat) (username : String)
    (mes : CommandMessage) : Option (ResponseMessage × PotatoSlave) :=
  match functions mes.Name with
  | some f => some (f s now username mes)
  | none => none

/-- One externally visible action the admission controller can take on an
accepted connection. -/
inductive ConnEffect : Type
  | writeResponse (r : ResponseMessage)
  | closeConn
  | spawnSession (username : String)
  deriving DecidableEq, Repr

/-- The NoWorkers response written by the admission controller. -/
def noWorkersResponse : ResponseMessage :=
  { Code := _NW, StatusMessage := statusMessages _NW, Value := "" }

/-- The timeout branch of the worker-permit `select` in `StartServing`
(slave.go:42-49), as the sequence of actions taken on the connection: the
source encodes exactly one NoWorkers response and then falls through —
it neither closes the connection nor starts a session on this path. -/
def noWorkersBranch : List ConnEffect :=
  [ConnEffect.writeResponse noWorkersResponse]

/-- The success branch of the same `select` (slave.go:37-40): resolve the
identity (the stub always yields `"user"`) and spawn the session handler.
No response is written and the connection stays open, owned by the session. -/
def workerAvailableBranch : List ConnEffect :=
  [ConnEffect.spawnSession "user"]

/-- Predicate `isSpawn e` holds when the effect `e` starts a session handler. -/
def isSpawn : ConnEffect → Bool
  | ConnEffect.spawnSession _ => true
  | _ => false

/-- Predicate `isClose e` holds when the effect `e` closes the connection. -/
def isClose : ConnEffect → Bool
  | ConnEffect.closeConn => true
  | _ => false

/-- Discriminators on a looked-up entry, used to state the type-mismatch
branches of the handlers. -/
def potat.isPstring : potat → Bool
  | potat.pstring _ _ => true
  | _ => false

def potat.isPlist : potat → Bool
  | potat.plist _ _ => true
  | _ => false

def potat.isPmap : potat → Bool
  | potat.pmap _ _ => true
  | _ => false

/-- Predicate `isPlistOpt o` is true when a lookup result `o` holds a list entry. -/
def isPlistOpt : Option potat → Bool
  | some p => p.isPlist
  | none => false

def isPmapOpt : Option potat → Bool
  | some p => p.isPmap
  | none => false

/-- The flat textual rendering of a keyspace's keys produced by the `keys`
handler: `'k1','k2',...` in storage order. -/
def fmtKeys (ks : Keyspace) : String :=
  ks.foldl (fun acc p => acc ++ "'" ++ p.1 ++ "',") ""

/-- How many entries of an association list carry the key `k`.  In every
state reachable through Go maps this is at most 1 for every key. -/
def countKey {α : Type} (l : List (String × α)) (k : String) : Nat :=
  (l.map Prod.fst).count k


/-!  Association-list lemmas: Go map semantics of `lookupA` / `insertA` /
`eraseA`, and key multiplicities. -/

theorem lookupA_insertA_self {α : Type} (l : List (String × α)) (k : String) (v : α) :
    lookupA (insertA l k v) k = some v := by
  induction l with
  | nil => simp [insertA, lookupA]
  | cons hd t ih =>
      obtain ⟨ka, va⟩ := hd
      by_cases hka : ka = k
      · simp [insertA, hka, lookupA]
      · simp [insertA, hka, lookupA, ih]

theorem lookupA_insertA_ne {α : Type} (l : List (String × α)) (k k₂ : String) (v : α)
    (hk : k₂ ≠ k) : lookupA (insertA l k v) k₂ = lookupA l k₂ := by
  have hk' : ¬ (k = k₂) := fun h => hk h.symm
  induction l with
  | nil => simp [insertA, lookupA, hk']
  | cons hd t ih =>
      obtain ⟨ka, va⟩ := hd
      by_cases hka : ka = k
      · rw [hka]
        simp [insertA, lookupA, hk', hka]
      · simp only [insertA, if_neg hka, lookupA]
        by_cases hka₂ : ka = k₂
        · simp [hka₂]
        · simp [hka₂, ih]

theorem getKS_setInKS_self (st : Storage) (u k : String) (v : potat) :
    getKS (setInKS st u k v) u = insertA (getKS st u) k v := by
  simp [setInKS, getKS, lookupA_insertA_self]

theorem getKS_delInKS_self (st : Storage) (u k : String) :
    getKS (delInKS st u k) u = eraseA (getKS st u) k := by
  unfold delInKS
  cases hu : lookupA st u with
  | none => simp [getKS, hu, eraseA]
  | some ks => simp [getKS, hu, lookupA_insertA_self]

theorem countKey_cons {α : Type} (ka k : String) (va : α) (t : List (String × α)) :
    countKey ((ka, va) :: t) k = countKey t k + (if ka = k then 1 else 0) := by
  by_cases h : ka = k
  · subst h
    simp [countKey, List.count_cons]
  · simp [countKey, List.count_cons, h, Ne.symm h]

theorem countKey_insertA {α : Type} (l : List (String × α)) (k : String) (v : α) :
    countKey (insertA l k v) k = if countKey l k = 0 then 1 else countKey l k := by
  induction l with
  | nil => simp [insertA, countKey]
  | cons hd t ih =>
      obtain ⟨ka, va⟩ := hd
      by_cases hka : ka = k
      · simp [insertA, hka, countKey_cons]
      · simp only [insertA, if_neg hka, countKey_cons, if_neg hka, ih, Nat.add_zero]

theorem countKey_eraseA {α : Type} (l : List (String × α)) (k : String) :
    countKey (eraseA l k) k = countKey l k - 1 := by
  induction l with
  | nil => simp [eraseA, countKey]
  | cons hd t ih =>
      obtain ⟨ka, va⟩ := hd
      by_cases hka : ka = k
      · simp [eraseA, hka, countKey_cons]
      · simp only [eraseA, if_neg hka, countKey_cons, if_neg hka, ih, Nat.add_zero]

theorem lookupA_eq_none_of_countKey_zero {α : Type} (l : List (String × α)) (k : String)
    (h : countKey l k = 0) : lookupA l k = none := by
  induction l with
  | nil => simp [lookupA]
  | cons hd t ih =>
      obtain ⟨ka, va⟩ := hd
      rw [countKey_cons] at h
      by_cases hka : ka = k
      · rw [if_pos hka] at h
        omega
      · rw [if_neg hka, Nat.add_zero] at h
        simp only [lookupA, if_neg hka]
        exact ih h

theorem countKey_filter_le {α : Type} (l : List (String × α)) (k : String)
    (f : String × α → Bool) : countKey (l.filter f) k ≤ countKey l k := by
  induction l with
  | nil => simp [countKey]
  | cons hd t ih =>
      obtain ⟨ka, va⟩ := hd
      by_cases hf : f (ka, va)
      · rw [List.filter_cons_of_pos hf, countKey_cons, countKey_cons]
        omega
      · rw [List.filter_cons_of_neg (by simpa using hf), countKey_cons]
        split <;> omega

theorem lookupA_filter {α : Type} (l : List (String × α)) (k : String)
    (f : String × α → Bool) (hc : countKey l k ≤ 1) :
    lookupA (l.filter f) k
      = (lookupA l k).bind (fun v => if f (k, v) then some v else none) := by
  induction l with
  | nil => simp [lookupA]
  | cons hd t ih =>
      obtain ⟨ka, va⟩ := hd
      rw [countKey_cons] at hc
      by_cases hka : ka = k
      · rw [if_pos hka] at hc
        have ht : countKey t k = 0 := by omega
        have hnone : lookupA (List.filter f t) k = none :=
          lookupA_eq_none_of_countKey_zero _ _
            (Nat.le_zero.mp (ht ▸ countKey_filter_le t k f))
        by_cases hf : f (ka, va)
        · rw [hka] at hf
          simp [List.filter_cons, lookupA, hka, hf]
        · rw [hka] at hf
          simp [List.filter_cons, lookupA, hka, hf, hnone]
      · rw [if_neg hka, Nat.add_zero] at hc
        by_cases hf : f (ka, va)
        · simp [List.filter_cons, lookupA, hka, hf, ih hc]
        · simp [List.filter_cons, lookupA, hka, hf, ih hc]

theorem lookupA_map_values {α β : Type} (st : List (String × α)) (u : String)
    (g : α → β) :
    lookupA (st.map (fun p => (p.1, g p.2))) u = (lookupA st u).map g := by
  induction st with
  | nil => simp [lookupA]
  | cons hd t ih =>
      obtain ⟨ka, va⟩ := hd
      by_cases hka : ka = u
      · simp [lookupA, hka]
      · simp [lookupA, hka, ih]

/-!  Step equations: what each handler does on a well-formed call, split by
the shape of the entry found at the key.  These are shared by the claim
theorems below. -/

theorem set_eq (s : PotatoSlave) (now : Nat) (u k v : String) (ttlv : Nat) :
    s.set now u ⟨"set", [k, v], ttlv⟩
      = (setStatus zeroResponse _OK,
        { s with storage := (setInKS (delInKS s.storage u k) u k
            (potat.pstring v (now + (if ttlv ≠ 0 then ttlv else s.DEFAULTTTL)))) }) := by
  simp [PotatoSlave.set, arg]

theorem lpush_create_eq (s : PotatoSlave) (now : Nat) (u k v : String) (ttlv : Nat)
    (h : isPlistOpt (lookupA (getKS s.storage u) k) = false) :
    s.lpush now u ⟨"lpush", [k, v], ttlv⟩
      = (setStatus zeroResponse _OK,
        { s with storage := (setInKS s.storage u k
            (potat.plist [v] (now + (if ttlv ≠ 0 then ttlv else s.DEFAULTTTL)))) }) := by
  cases hl : lookupA (getKS s.storage u) k with
  | none => simp [PotatoSlave.lpush, arg, hl]
  | some p =>
      cases p with
      | pstring c t => simp [PotatoSlave.lpush, arg, hl]
      | plist l t => rw [hl] at h; simp [isPlistOpt, potat.isPlist] at h
      | pmap m t => simp [PotatoSlave.lpush, arg, hl]

theorem lpush_inplace_eq (s : PotatoSlave) (now : Nat) (u k v : String) (ttlv : Nat)
    (l : List String) (t : Nat)
    (hl : lookupA (getKS s.storage u) k = some (potat.plist l t)) :
    s.lpush now u ⟨"lpush", [k, v], ttlv⟩
      = (setStatus zeroResponse _OK,
        { s with storage := setInKS s.storage u k (potat.plist (l ++ [v]) t) }) := by
  simp [PotatoSlave.lpush, arg, hl, potat.setContent]

theorem hset_create_eq (s : PotatoSlave) (now : Nat) (u k fld v : String) (ttlv : Nat)
    (h : isPmapOpt (lookupA (getKS s.storage u) k) = false) :
    s.hset now u ⟨"hset", [k, fld, v], ttlv⟩
      = (zeroResponse,
        { s with storage := (setInKS s.storage u k
            (potat.pmap [(v, fld)] (now + (if ttlv ≠ 0 then ttlv else s.DEFAULTTTL)))) }) := by
  cases hl : lookupA (getKS s.storage u) k with
  | none => simp [PotatoSlave.hset, arg, hl]
  | some p =>
      cases p with
      | pstring c t => simp [PotatoSlave.hset, arg, hl]
      | plist l t => simp [PotatoSlave.hset, arg, hl]
      | pmap m t => rw [hl] at h; simp [isPmapOpt, potat.isPmap] at h

theorem hset_inplace_eq (s : PotatoSlave) (now : Nat) (u k fld v : String) (ttlv : Nat)
    (m : List (String × String)) (t : Nat)
    (hl : lookupA (getKS s.storage u) k = some (potat.pmap m t)) :
    s.hset now u ⟨"hset", [k, fld, v], ttlv⟩
      = (setStatus zeroResponse _OK,
        { s with storage := setInKS s.storage u k (potat.pmap (insertA m fld v) t) }) := by
  simp [PotatoSlave.hset, arg, hl, potat.setContent]

theorem lset_absent_eq (s : PotatoSlave) (now : Nat) (u k i v : String) (ttlv : Nat)
    (hl : lookupA (getKS s.storage u) k = none) :
    s.lset now u ⟨"lset", [k, i, v], ttlv⟩ = (setStatus zeroResponse _NK, s) := by
  simp [PotatoSlave.lset, arg, hl]

theorem lset_inplace_exists (s : PotatoSlave) (now : Nat) (u k i v : String) (ttlv : Nat)
    (l : List String) (t : Nat)
    (hl : lookupA (getKS s.storage u) k = some (potat.plist l t)) :
    ∃ l' : List String,
      lookupA (getKS (s.lset now u ⟨"lset", [k, i, v], ttlv⟩).2.storage u) k
        = some (potat.plist l' t) := by
  by_cases hi : i = "-1"
  · refine ⟨l ++ [v], ?_⟩
    simp [PotatoSlave.lset, arg, hl, potat.setContent, hi, getKS_setInKS_self,
      lookupA_insertA_self]
  · cases hj : i.toNat? with
    | none =>
        refine ⟨l, ?_⟩
        simp [PotatoSlave.lset, arg, hl, potat.setContent, hi, hj]
    | some j =>
        by_cases hlen : j < l.length
        · refine ⟨l.set j v, ?_⟩
          simp [PotatoSlave.lset, arg, hl, potat.setContent, hi, hj, hlen,
            getKS_setInKS_self, lookupA_insertA_self]
        · refine ⟨l, ?_⟩
          simp [PotatoSlave.lset, arg, hl, potat.setContent, hi, hj, hlen]

/-!  Claim theorems. -/

/-- Claim C1: every command (del, keys, get, set, lpush, lset, lget, hget,
hset) invoked with an argument count different from its required arity
(1, 0, 1, 2, 2, 3, 2, 2, 3 respectively) returns a WrongArguments response
and leaves the slave's state — in particular the storage mapping — exactly
unchanged; the arity check short-circuits before any storage access. -/
theorem wrong_arity_returns_WA_and_preserves_state
    (s : PotatoSlave) (now : Nat) (u : String) (mes : CommandMessage) :
    (mes.Arguments.length ≠ 1 → s.del now u mes = (setStatus zeroResponse _WA, s)) ∧
    (mes.Arguments.length ≠ 0 → s.keys now u mes = (setStatus zeroResponse _WA, s)) ∧
    (mes.Arguments.length ≠ 1 → s.get now u mes = (setStatus zeroResponse _WA, s)) ∧
    (mes.Arguments.length ≠ 2 → s.set now u mes = (setStatus zeroResponse _WA, s)) ∧
    (mes.Arguments.length ≠ 2 → s.lpush now u mes = (setStatus zeroResponse _WA, s)) ∧
    (mes.Arguments.length ≠ 3 → s.lset now u mes = (setStatus zeroResponse _WA, s)) ∧
    (mes.Arguments.length ≠ 2 → s.lget now u mes = (setStatus zeroResponse _WA, s)) ∧
    (mes.Arguments.length ≠ 2 → s.hget now u mes = (setStatus zeroResponse _WA, s)) ∧
    (mes.Arguments.length ≠ 3 → s.hset now u mes = (setStatus zeroResponse _WA, s)) := by
  refine ⟨?_, ?_, ?_, ?_, ?_, ?_, ?_, ?_, ?_⟩ <;> intro h <;>
    simp [PotatoSlave.del, PotatoSlave.keys, PotatoSlave.get, PotatoSlave.set,
      PotatoSlave.lpush, PotatoSlave.lset, PotatoSlave.lget, PotatoSlave.hget,
      PotatoSlave.hset, h]

/-- Witness for C1: a four-argument message is the wrong arity for every
command; shown here for `del` (arity 1) and `hset` (arity 3). -/
theorem wrong_arity_returns_WA_and_preserves_state_witness :
    (["a", "b", "c", "d"] : List String).length ≠ 1 ∧
    (["a", "b", "c", "d"] : List String).length ≠ 3 ∧
    PotatoSlave.del ⟨[("user", [])], 7⟩ 0 "user" ⟨"del", ["a", "b", "c", "d"], 0⟩
      = (setStatus zeroResponse _WA, ⟨[("user", [])], 7⟩) ∧
    PotatoSlave.hset ⟨[("user", [])], 7⟩ 0 "user" ⟨"hset", ["a", "b", "c", "d"], 0⟩
      = (setStatus zeroResponse _WA, ⟨[("user", [])], 7⟩) :=
  ⟨by decide, by decide,
    (wrong_arity_returns_WA_and_preserves_state ⟨[("user", [])], 7⟩ 0 "user"
      ⟨"del", ["a", "b", "c", "d"], 0⟩).1 (by decide),
    (wrong_arity_returns_WA_and_preserves_state ⟨[("user", [])], 7⟩ 0 "user"
      ⟨"hset", ["a", "b", "c", "d"], 0⟩).2.2.2.2.2.2.2.2 (by decide)⟩

/-- Claim C2: `set(k,v)` deletes any existing Entry at `k` (whatever its
variant) and stores a fresh StringValue with content `v` and death time
`now + TTL` (override if nonzero, else the server default); afterwards
exactly one Entry exists at `k` and a subsequent `get(k)` answers
`(v, OK)`.  The hypothesis `countKey … ≤ 1` states that the caller's
keyspace holds at most one entry for `k`, which is true of every state
reachable through Go maps (map keys are unique). -/
theorem set_overwrites_any_entry_then_get_returns_it
    (s : PotatoSlave) (now now' : Nat) (u k v : String) (ttlv : Nat)
    (hc : countKey (getKS s.storage u) k ≤ 1) :
    (s.set now u ⟨"set", [k, v], ttlv⟩).1 = setStatus zeroResponse _OK ∧
    lookupA (getKS (s.set now u ⟨"set", [k, v], ttlv⟩).2.storage u) k
      = some (potat.pstring v (now + (if ttlv ≠ 0 then ttlv else s.DEFAULTTTL))) ∧
    countKey (getKS (s.set now u ⟨"set", [k, v], ttlv⟩).2.storage u) k = 1 ∧
    ((s.set now u ⟨"set", [k, v], ttlv⟩).2.get now' u ⟨"get", [k], 0⟩).1
      = { Code := _OK, StatusMessage := "OK", Value := v } := by
  have hlook : lookupA (getKS (s.set now u ⟨"set", [k, v], ttlv⟩).2.storage u) k
      = some (potat.pstring v (now + (if ttlv ≠ 0 then ttlv else s.DEFAULTTTL))) := by
    rw [set_eq]
    simp [getKS_setInKS_self, lookupA_insertA_self]
  refine ⟨by rw [set_eq], hlook, ?_, ?_⟩
  · rw [set_eq]
    simp only [getKS_setInKS_self, countKey_insertA, getKS_delInKS_self, countKey_eraseA]
    have h0 : countKey (getKS s.storage u) k - 1 = 0 := by omega
    rw [h0]
    simp
  · simp [PotatoSlave.get, arg, hlook, potat.getContent, setStatus, statusMessages,
      zeroResponse, _OK, _WT, _NK, _WA, _NW]

/-- Witness for C2: overwrite a map entry at `"k"` with `set`, then `get`
it back. -/
theorem set_overwrites_any_entry_then_get_returns_it_witness :
    countKey (getKS ([("user", [("k", potat.pmap [("f", "g")] 99)])] : Storage) "user") "k"
      ≤ 1 ∧
    (((PotatoSlave.mk [("user", [("k", potat.pmap [("f", "g")] 99)])] 5).set 10 "user"
        ⟨"set", ["k", "v2"], 0⟩).2.get 11 "user" ⟨"get", ["k"], 0⟩).1
      = { Code := _OK, StatusMessage := "OK", Value := "v2" } :=
  ⟨by decide,
    (set_overwrites_any_entry_then_get_returns_it
      (PotatoSlave.mk [("user", [("k", potat.pmap [("f", "g")] 99)])] 5)
      10 11 "user" "k" "v2" 0 (by decide)).2.2.2⟩

/-- Claim C3: when the entry at the key has a variant different from the
write's variant — or the key is absent — `lpush` and `hset` silently store
a brand-new entry of the matching variant (a one-element list, resp. a
one-field map) with a fresh death time `now + TTL`, and the response is
never WrongType (`lpush` answers OK, `hset`'s creation path answers the
zero-value response, code 0); when the variant already matches they mutate
the existing entry in place. -/
theorem lpush_hset_replace_create_or_mutate :
    (∀ (s : PotatoSlave) (now : Nat) (u k v : String) (ttlv : Nat),
      isPlistOpt (lookupA (getKS s.storage u) k) = false →
      s.lpush now u ⟨"lpush", [k, v], ttlv⟩
        = (setStatus zeroResponse _OK,
          { s with storage := (setInKS s.storage u k
              (potat.plist [v] (now + (if ttlv ≠ 0 then ttlv else s.DEFAULTTTL)))) })) ∧
    (∀ (s : PotatoSlave) (now : Nat) (u k v : String) (ttlv : Nat)
        (l : List String) (t : Nat),
      lookupA (getKS s.storage u) k = some (potat.plist l t) →
      s.lpush now u ⟨"lpush", [k, v], ttlv⟩
        = (setStatus zeroResponse _OK,
          { s with storage := (setInKS s.storage u k (potat.plist (l ++ [v]) t)) })) ∧
    (∀ (s : PotatoSlave) (now : Nat) (u k fld v : String) (ttlv : Nat),
      isPmapOpt (lookupA (getKS s.storage u) k) = false →
      s.hset now u ⟨"hset", [k, fld, v], ttlv⟩
        = (zeroResponse,
          { s with storage := (setInKS s.storage u k
              (potat.pmap [(v, fld)] (now + (if ttlv ≠ 0 then ttlv else s.DEFAULTTTL)))) })) ∧
    (∀ (s : PotatoSlave) (now : Nat) (u k fld v : String) (ttlv : Nat)
        (m : List (String × String)) (t : Nat),
      lookupA (getKS s.storage u) k = some (potat.pmap m t) →
      s.hset now u ⟨"hset", [k, fld, v], ttlv⟩
        = (setStatus zeroResponse _OK,
          { s with storage := (setInKS s.storage u k (potat.pmap (insertA m fld v) t)) })) :=
  ⟨fun s now u k v ttlv h => lpush_create_eq s now u k v ttlv h,
   fun s now u k v ttlv l t hl => lpush_inplace_eq s now u k v ttlv l t hl,
   fun s now u k fld v ttlv h => hset_create_eq s now u k fld v ttlv h,
   fun s now u k fld v ttlv m t hl => hset_inplace_eq s now u k fld v ttlv m t hl⟩

/-- Witness for C3: `lpush` onto a key holding a string replaces it with a
fresh one-element list; `lpush` onto a list appends; `hset` onto a key
holding a string replaces it with a fresh one-field map; `hset` onto a map
writes the field in place. -/
theorem lpush_hset_replace_create_or_mutate_witness :
    isPlistOpt (lookupA (getKS ([("user", [("k", potat.pstring "x" 9)])] : Storage) "user")
      "k") = false ∧
    (PotatoSlave.mk [("user", [("k", potat.pstring "x" 9)])] 5).lpush 10 "user"
        ⟨"lpush", ["k", "a"], 0⟩
      = (setStatus zeroResponse _OK,
         PotatoSlave.mk [("user", [("k", potat.plist ["a"] 15)])] 5) ∧
    (PotatoSlave.mk [("user", [("k", potat.plist ["a"] 15)])] 5).lpush 20 "user"
        ⟨"lpush", ["k", "b"], 0⟩
      = (setStatus zeroResponse _OK,
         PotatoSlave.mk [("user", [("k", potat.plist ["a", "b"] 15)])] 5) ∧
    isPmapOpt (lookupA (getKS ([("user", [("h", potat.pstring "x" 9)])] : Storage) "user")
      "h") = false ∧
    (PotatoSlave.mk [("user", [("h", potat.pstring "x" 9)])] 5).hset 10 "user"
        ⟨"hset", ["h", "f", "v"], 0⟩
      = (zeroResponse,
         PotatoSlave.mk [("user", [("h", potat.pmap [("v", "f")] 15)])] 5) ∧
    (PotatoSlave.mk [("user", [("h", potat.pmap [("v", "f")] 15)])] 5).hset 20 "user"
        ⟨"hset", ["h", "f2", "v2"], 0⟩
      = (setStatus zeroResponse _OK,
         PotatoSlave.mk [("user", [("h", potat.pmap [("v", "f"), ("f2", "v2")] 15)])] 5) :=
  ⟨by decide,
   lpush_hset_replace_create_or_mutate.1
     (PotatoSlave.mk [("user", [("k", potat.pstring "x" 9)])] 5) 10 "user" "k" "a" 0
     (by decide),
   lpush_hset_replace_create_or_mutate.2.1
     (PotatoSlave.mk [("user", [("k", potat.plist ["a"] 15)])] 5) 20 "user" "k" "b" 0
     ["a"] 15 (by decide),
   by decide,
   lpush_hset_replace_create_or_mutate.2.2.1
     (PotatoSlave.mk [("user", [("h", potat.pstring "x" 9)])] 5) 10 "user" "h" "f" "v" 0
     (by decide),
   lpush_hset_replace_create_or_mutate.2.2.2
     (PotatoSlave.mk [("user", [("h", potat.pmap [("v", "f")] 15)])] 5) 20 "user" "h"
     "f2" "v2" 0 [("v", "f")] 15 (by decide)⟩

/-- Counterexample to claim C4 as stated: `del` with correct arity does not
follow the NoKey/WrongType discipline — on an entirely absent key it
answers OK (and on a list entry it deletes and answers OK, with no
WrongType). -/
theorem del_ignores_absence_and_variant :
    ((PotatoSlave.mk [("user", [])] 5).del 0 "user" ⟨"del", ["k"], 0⟩).1
      = setStatus zeroResponse _OK ∧
    setStatus zeroResponse _OK ≠ setStatus zeroResponse _NK ∧
    (PotatoSlave.mk [("user", [("k", potat.plist ["a"] 9)])] 5).del 0 "user"
        ⟨"del", ["k"], 0⟩
      = (setStatus zeroResponse _OK, PotatoSlave.mk [("user", [])] 5) := by
  refine ⟨by decide, by decide, by decide⟩

/-- Claim C4 (amended): `get`, `lget`, `hget` and `lset` never create or
replace an Entry — the three readers never change the state at all, an
absent key yields NoKey, a variant mismatch yields WrongType (state
unchanged), and `lset` on a matching list entry only mutates its contents,
preserving variant and death time.  `del` also never creates or replaces,
but it deletes unconditionally and answers OK even when the key is absent
or holds any variant — it never reports NoKey or WrongType. -/
theorem readers_lset_del_discipline :
    (∀ (s : PotatoSlave) (now : Nat) (u : String) (mes : CommandMessage),
      (s.get now u mes).2 = s ∧ (s.lget now u mes).2 = s ∧ (s.hget now u mes).2 = s) ∧
    (∀ (s : PotatoSlave) (now : Nat) (u k i fld v : String),
      lookupA (getKS s.storage u) k = none →
      (s.get now u ⟨"get", [k], 0⟩).1 = setStatus zeroResponse _NK ∧
      (s.lget now u ⟨"lget", [k, i], 0⟩).1 = setStatus zeroResponse _NK ∧
      (s.hget now u ⟨"hget", [k, fld], 0⟩).1 = setStatus zeroResponse _NK ∧
      s.lset now u ⟨"lset", [k, i, v], 0⟩ = (setStatus zeroResponse _NK, s)) ∧
    (∀ (s : PotatoSlave) (now : Nat) (u k i fld v : String) (p : potat),
      lookupA (getKS s.storage u) k = some p →
      (p.isPstring = false →
        (s.get now u ⟨"get", [k], 0⟩).1 = setStatus zeroResponse _WT) ∧
      (p.isPlist = false →
        (s.lget now u ⟨"lget", [k, i], 0⟩).1 = setStatus zeroResponse _WT ∧
        s.lset now u ⟨"lset", [k, i, v], 0⟩ = (setStatus zeroResponse _WT, s)) ∧
      (p.isPmap = false →
        (s.hget now u ⟨"hget", [k, fld], 0⟩).1 = setStatus zeroResponse _WT)) ∧
    (∀ (s : PotatoSlave) (now : Nat) (u k i v : String) (l : List String) (t : Nat),
      lookupA (getKS s.storage u) k = some (potat.plist l t) →
      ∃ l' : List String,
        lookupA (getKS (s.lset now u ⟨"lset", [k, i, v], 0⟩).2.storage u) k
          = some (potat.plist l' t)) ∧
    (∀ (s : PotatoSlave) (now : Nat) (u k : String),
      s.del now u ⟨"del", [k], 0⟩
        = (setStatus zeroResponse _OK, { s with storage := delInKS s.storage u k })) := by
  refine ⟨?_, ?_, ?_, ?_, ?_⟩
  · intro s now u mes
    refine ⟨?_, ?_, ?_⟩
    · unfold PotatoSlave.get
      split
      · rfl
      · split <;> rfl
    · unfold PotatoSlave.lget
      split
      · rfl
      · split <;> first | rfl | (split <;> rfl)
    · unfold PotatoSlave.hget
      split
      · rfl
      · split <;> first | rfl | (split <;> rfl)
  · intro s now u k i fld v hl
    refine ⟨?_, ?_, ?_, ?_⟩ <;>
      simp [PotatoSlave.get, PotatoSlave.lget, PotatoSlave.hget, PotatoSlave.lset, arg, hl]
  · intro s now u k i fld v p hl
    refine ⟨?_, ?_, ?_⟩
    · intro hp
      cases p with
      | pstring c t => simp [potat.isPstring] at hp
      | plist l t => simp [PotatoSlave.get, arg, hl]
      | pmap m t => simp [PotatoSlave.get, arg, hl]
    · intro hp
      cases p with
      | pstring c t =>
          exact ⟨by simp [PotatoSlave.lget, arg, hl], by simp [PotatoSlave.lset, arg, hl]⟩
      | plist l t => simp [potat.isPlist] at hp
      | pmap m t =>
          exact ⟨by simp [PotatoSlave.lget, arg, hl], by simp [PotatoSlave.lset, arg, hl]⟩
    · intro hp
      cases p with
      | pstring c t => simp [PotatoSlave.hget, arg, hl]
      | plist l t => simp [PotatoSlave.hget, arg, hl]
      | pmap m t => simp [potat.isPmap] at hp
  · intro s now u k i v l t hl
    exact lset_inplace_exists s now u k i v 0 l t hl
  · intro s now u k
    simp [PotatoSlave.del, arg]

/-- Witness for C4 (amended) at concrete states: absent key → NoKey on
`get`; a string entry → WrongType on `lget`; `lset` on a list entry keeps
its death time; `del` deletes and answers OK. -/
theorem readers_lset_del_discipline_witness :
    lookupA (getKS ([("user", [])] : Storage) "user") "k" = none ∧
    ((PotatoSlave.mk [("user", [])] 5).get 0 "user" ⟨"get", ["k"], 0⟩).1
      = setStatus zeroResponse _NK ∧
    lookupA (getKS ([("user", [("k", potat.pstring "x" 9)])] : Storage) "user") "k"
      = some (potat.pstring "x" 9) ∧
    (potat.pstring "x" 9).isPlist = false ∧
    ((PotatoSlave.mk [("user", [("k", potat.pstring "x" 9)])] 5).lget 0 "user"
        ⟨"lget", ["k", "0"], 0⟩).1 = setStatus zeroResponse _WT ∧
    lookupA (getKS ([("user", [("k", potat.plist ["a", "b"] 9)])] : Storage) "user") "k"
      = some (potat.plist ["a", "b"] 9) ∧
    (∃ l' : List String,
      lookupA (getKS ((PotatoSlave.mk [("user", [("k", potat.plist ["a", "b"] 9)])] 5).lset
          0 "user" ⟨"lset", ["k", "1", "z"], 0⟩).2.storage "user") "k"
        = some (potat.plist l' 9)) ∧
    (PotatoSlave.mk [("user", [("k", potat.pstring "x" 9)])] 5).del 0 "user"
        ⟨"del", ["k"], 0⟩
      = (setStatus zeroResponse _OK,
         { PotatoSlave.mk [("user", [("k", potat.pstring "x" 9)])] 5 with
             storage := delInKS [("user", [("k", potat.pstring "x" 9)])] "user" "k" }) :=
  ⟨by decide,
   ((readers_lset_del_discipline.2.1 (PotatoSlave.mk [("user", [])] 5) 0 "user" "k" "0"
      "f" "v") (by decide)).1,
   by decide,
   by decide,
   (((readers_lset_del_discipline.2.2.1
      (PotatoSlave.mk [("user", [("k", potat.pstring "x" 9)])] 5) 0 "user" "k" "0" "f" "v"
      (potat.pstring "x" 9)) (by decide)).2.1 (by decide)).1,
   by decide,
   readers_lset_del_discipline.2.2.2.1
     (PotatoSlave.mk [("user", [("k", potat.plist ["a", "b"] 9)])] 5) 0 "user" "k" "1" "z"
     ["a", "b"] 9 (by decide),
   readers_lset_del_discipline.2.2.2.2
     (PotatoSlave.mk [("user", [("k", potat.pstring "x" 9)])] 5) 0 "user" "k"⟩

/-- Counterexample to claim C5 as stated: the sweep uses the strict
comparison `getTimeOfDeath().Before(now)`, so an entry whose death time is
exactly `now` ("at … the current time") is NOT deleted. -/
theorem reaper_keeps_entry_dying_exactly_now :
    potat.getTimeOfDeath (potat.pstring "v" 5) ≤ 5 ∧
    ttlSweepKS 5 [("k", potat.pstring "v" 5)] = [("k", potat.pstring "v" 5)] ∧
    lookupA (ttlSweepKS 5 [("k", potat.pstring "v" 5)]) "k" ≠ none := by
  refine ⟨by decide, by decide, by decide⟩

/-- Claim C5 (amended): in each reaper sweep, for every user and every key,
the Entry is deleted exactly when its death time is strictly before the
sweep instant `now`; an entry whose death time equals `now` survives that
sweep.  (Per-user decomposition plus the per-key deletion rule; the
`countKey` hypothesis is key-uniqueness, true of all Go-map states.) -/
theorem reaper_deletes_iff_strictly_before_now (now : Nat) (st : Storage) (u : String)
    (ks : Keyspace) (k : String) (hc : countKey ks k ≤ 1) :
    getKS (ttlSweep now st) u = ttlSweepKS now (getKS st u) ∧
    lookupA (ttlSweepKS now ks) k
      = (lookupA ks k).bind
          (fun p => if p.getTimeOfDeath < now then none else some p) := by
  constructor
  · unfold ttlSweep getKS
    rw [lookupA_map_values]
    cases lookupA st u <;> simp [ttlSweepKS]
  · unfold ttlSweepKS
    rw [lookupA_filter _ _ _ hc]
    congr 1
    funext p
    by_cases h : p.getTimeOfDeath < now <;> simp [h]

/-- Witness for C5 (amended): at `now = 5` an entry dying at 3 is swept, one
dying at 5 survives. -/
theorem reaper_deletes_iff_strictly_before_now_witness :
    countKey ([("a", potat.pstring "x" 3), ("b", potat.pstring "y" 5)] : Keyspace) "a"
      ≤ 1 ∧
    lookupA (ttlSweepKS 5 [("a", potat.pstring "x" 3), ("b", potat.pstring "y" 5)]) "a"
      = (lookupA ([("a", potat.pstring "x" 3), ("b", potat.pstring "y" 5)] : Keyspace)
          "a").bind (fun p => if p.getTimeOfDeath < 5 then none else some p) :=
  ⟨by decide,
   (reaper_deletes_iff_strictly_before_now 5 [] "user"
     [("a", potat.pstring "x" 3), ("b", potat.pstring "y" 5)] "a" (by decide)).2⟩

/-- Claim C6 / what the source actually does: an unrecognized command name
has no entry in the dispatch table, so the dispatch step of
`handleConnection` reads a nil function from `s.functions` and the call
faults — modelled as `none`: no response is produced for any state.  The
source has no "unknown command" failure status at all. -/
theorem unknown_command_dispatch_faults
    (s : PotatoSlave) (now : Nat) (un : String) (mes : CommandMessage)
    (h : mes.Name ∉ supportedCommands) :
    dispatch s now un mes = none := by
  unfold dispatch functions
  simp only [supportedCommands, List.mem_cons, List.not_mem_nil, or_false,
    not_or] at h
  obtain ⟨h1, h2, h3, h4, h5, h6, h7, h8, h9⟩ := h
  simp [h1, h2, h3, h4, h5, h6, h7, h8, h9]

/-- Witness for C6: the command name `"bogus"` is unsupported and its
dispatch faults. -/
theorem unknown_command_dispatch_faults_witness :
    ("bogus" : String) ∉ supportedCommands ∧
    dispatch (PotatoSlave.mk [("user", [])] 5) 0 "user" ⟨"bogus", [], 0⟩ = none :=
  ⟨by decide,
   unknown_command_dispatch_faults (PotatoSlave.mk [("user", [])] 5) 0 "user"
     ⟨"bogus", [], 0⟩ (by decide)⟩

/-- Claim C7 / what the source actually does on the rejection path: when no
worker permit is obtained within the wait budget, the branch writes
exactly one response, which is the NoWorkers response, and starts no
session handler — but it performs no close of the connection (the source
falls through without closing, which is the divergence from the claim). -/
theorem noWorkers_branch_one_response_no_session_no_close :
    noWorkersBranch.count (ConnEffect.writeResponse noWorkersResponse) = 1 ∧
    noWorkersBranch = [ConnEffect.writeResponse noWorkersResponse] ∧
    noWorkersResponse.Code = _NW ∧
    noWorkersBranch.filter isSpawn = [] ∧
    noWorkersBranch.filter isClose = [] := by
  refine ⟨by decide, by decide, by decide, by decide, by decide⟩

/-- Counterexample to claim C8 as stated: `keys` iterates
`s.storage["user"]`, not the caller's keyspace; a caller identity
`"alice"` whose own keyspace holds the key `"x"` receives the listing of
the `"user"` keyspace (empty) instead of `'x',`. -/
theorem keys_ignores_caller_identity :
    ((PotatoSlave.mk [("alice", [("x", potat.pstring "1" 9)]), ("user", [])] 5).keys
        0 "alice" ⟨"keys", [], 0⟩).1.Value = "" ∧
    fmtKeys (getKS ([("alice", [("x", potat.pstring "1" 9)]), ("user", [])] : Storage)
      "alice") = "'x'," ∧
    ("" : String) ≠ "'x'," := by
  refine ⟨by decide, by decide, by decide⟩

/-- Claim C8 (amended): `keys` with zero arguments returns OK with a value
listing exactly the keys of the fixed `"user"` keyspace, formatted
`'k1','k2',...`; since the stub authenticator maps every connection to the
identity `"user"`, this is the caller's own keyspace for every session the
server actually creates, but for any other caller identity it is not. -/
theorem keys_lists_fixed_user_keyspace
    (s : PotatoSlave) (now : Nat) (u : String) (mes : CommandMessage)
    (h : mes.Arguments.length = 0) :
    s.keys now u mes
      = ({ Code := _OK, StatusMessage := "OK",
           Value := fmtKeys (getKS s.storage "user") }, s) := by
  simp [PotatoSlave.keys, h, fmtKeys, setStatus, statusMessages, zeroResponse]

/-- Witness for C8 (amended): two stored keys come back as `'a','b',`. -/
theorem keys_lists_fixed_user_keyspace_witness :
    (([] : List String).length = 0) ∧
    (PotatoSlave.mk [("user", [("a", potat.pstring "1" 9), ("b", potat.plist [] 9)])] 5).keys
        0 "user" ⟨"keys", [], 0⟩
      = ({ Code := _OK, StatusMessage := "OK", Value := "'a','b'," },
         PotatoSlave.mk [("user", [("a", potat.pstring "1" 9), ("b", potat.plist [] 9)])] 5) :=
  ⟨rfl,
   keys_lists_fixed_user_keyspace
     (PotatoSlave.mk [("user", [("a", potat.pstring "1" 9), ("b", potat.plist [] 9)])] 5)
     0 "user" ⟨"keys", [], 0⟩ rfl⟩

/-- Claim C9: an Entry's death time is set only at creation, to `now` plus
the command's TTL override when nonzero and otherwise `now` plus the
server default TTL (`set`, `lpush` creation, `hset` creation), and every
in-place same-variant mutation — list append via `lpush`, list overwrite
via `lset`, map field set via `hset` — leaves the stored Entry's death
time unchanged. -/
theorem death_time_fixed_at_creation :
    (∀ (s : PotatoSlave) (now : Nat) (u k v : String) (ttlv : Nat),
      lookupA (getKS (s.set now u ⟨"set", [k, v], ttlv⟩).2.storage u) k
        = some (potat.pstring v (now + (if ttlv ≠ 0 then ttlv else s.DEFAULTTTL)))) ∧
    (∀ (s : PotatoSlave) (now : Nat) (u k v : String) (ttlv : Nat),
      isPlistOpt (lookupA (getKS s.storage u) k) = false →
      lookupA (getKS (s.lpush now u ⟨"lpush", [k, v], ttlv⟩).2.storage u) k
        = some (potat.plist [v] (now + (if ttlv ≠ 0 then ttlv else s.DEFAULTTTL)))) ∧
    (∀ (s : PotatoSlave) (now : Nat) (u k fld v : String) (ttlv : Nat),
      isPmapOpt (lookupA (getKS s.storage u) k) = false →
      lookupA (getKS (s.hset now u ⟨"hset", [k, fld, v], ttlv⟩).2.storage u) k
        = some (potat.pmap [(v, fld)] (now + (if ttlv ≠ 0 then ttlv else s.DEFAULTTTL)))) ∧
    (∀ (s : PotatoSlave) (now : Nat) (u k v : String) (ttlv : Nat)
        (l : List String) (t : Nat),
      lookupA (getKS s.storage u) k = some (potat.plist l t) →
      lookupA (getKS (s.lpush now u ⟨"lpush", [k, v], ttlv⟩).2.storage u) k
        = some (potat.plist (l ++ [v]) t)) ∧
    (∀ (s : PotatoSlave) (now : Nat) (u k i v : String) (ttlv : Nat)
        (l : List String) (t : Nat),
      lookupA (getKS s.storage u) k = some (potat.plist l t) →
      ∃ l' : List String,
        lookupA (getKS (s.lset now u ⟨"lset", [k, i, v], ttlv⟩).2.storage u) k
          = some (potat.plist l' t)) ∧
    (∀ (s : PotatoSlave) (now : Nat) (u k fld v : String) (ttlv : Nat)
        (m : List (String × String)) (t : Nat),
      lookupA (getKS s.storage u) k = some (potat.pmap m t) →
      lookupA (getKS (s.hset now u ⟨"hset", [k, fld, v], ttlv⟩).2.storage u) k
        = some (potat.pmap (insertA m fld v) t)) := by
  refine ⟨?_, ?_, ?_, ?_, ?_, ?_⟩
  · intro s now u k v ttlv
    rw [set_eq]
    simp [getKS_setInKS_self, lookupA_insertA_self]
  · intro s now u k v ttlv h
    rw [lpush_create_eq s now u k v ttlv h]
    simp [getKS_setInKS_self, lookupA_insertA_self]
  · intro s now u k fld v ttlv h
    rw [hset_create_eq s now u k fld v ttlv h]
    simp [getKS_setInKS_self, lookupA_insertA_self]
  · intro s now u k v ttlv l t hl
    rw [lpush_inplace_eq s now u k v ttlv l t hl]
    simp [getKS_setInKS_self, lookupA_insertA_self]
  · intro s now u k i v ttlv l t hl
    exact lset_inplace_exists s now u k i v ttlv l t hl
  · intro s now u k fld v ttlv m t hl
    rw [hset_inplace_eq s now u k fld v ttlv m t hl]
    simp [getKS_setInKS_self, lookupA_insertA_self]

/-- Witness for C9: creation under the default TTL (override 0) stamps
`now + DEFAULTTTL`; `lpush` append and `hset` field-set keep the old death
time 15 even at a later `now` with a nonzero override. -/
theorem death_time_fixed_at_creation_witness :
    lookupA (getKS ((PotatoSlave.mk [("user", [])] 5).set 10 "user"
        ⟨"set", ["k", "v"], 0⟩).2.storage "user") "k"
      = some (potat.pstring "v" 15) ∧
    lookupA (getKS ([("user", [("k", potat.plist ["a"] 15)])] : Storage) "user") "k"
      = some (potat.plist ["a"] 15) ∧
    lookupA (getKS ((PotatoSlave.mk [("user", [("k", potat.plist ["a"] 15)])] 5).lpush
        90 "user" ⟨"lpush", ["k", "b"], 7⟩).2.storage "user") "k"
      = some (potat.plist ["a", "b"] 15) ∧
    lookupA (getKS ((PotatoSlave.mk [("user", [("h", potat.pmap [] 15)])] 5).hset
        90 "user" ⟨"hset", ["h", "f", "v"], 7⟩).2.storage "user") "h"
      = some (potat.pmap [("f", "v")] 15) :=
  ⟨death_time_fixed_at_creation.1 (PotatoSlave.mk [("user", [])] 5) 10 "user" "k" "v" 0,
   by decide,
   death_time_fixed_at_creation.2.2.2.1
     (PotatoSlave.mk [("user", [("k", potat.plist ["a"] 15)])] 5) 90 "user" "k" "b" 7
     ["a"] 15 (by decide),
   death_time_fixed_at_creation.2.2.2.2.2
     (PotatoSlave.mk [("user", [("h", potat.pmap [] 15)])] 5) 90 "user" "h" "f" "v" 7
     [] 15 (by decide)⟩

/-- Claim C10: when `hset` with correct arity creates a new map Entry (key
absent or holding a non-map variant), the returned Response is the Go
zero value: status code 0 — which is the OK code — with an empty status
message, because no status is set on that path of the source. -/
theorem hset_create_returns_code0_empty_message
    (s : PotatoSlave) (now : Nat) (u k fld v : String) (ttlv : Nat)
    (h : isPmapOpt (lookupA (getKS s.storage u) k) = false) :
    (s.hset now u ⟨"hset", [k, fld, v], ttlv⟩).1 = zeroResponse ∧
    zeroResponse.Code = _OK ∧ zeroResponse.StatusMessage = "" := by
  refine ⟨?_, rfl, rfl⟩
  rw [hset_create_eq s now u k fld v ttlv h]

/-- Witness for C10: `hset` on an absent key answers code 0 with empty
status message. -/
theorem hset_create_returns_code0_empty_message_witness :
    isPmapOpt (lookupA (getKS ([("user", [])] : Storage) "user") "h") = false ∧
    ((PotatoSlave.mk [("user", [])] 5).hset 10 "user" ⟨"hset", ["h", "f", "v"], 0⟩).1
      = zeroResponse :=
  ⟨by decide,
   (hset_create_returns_code0_empty_message (PotatoSlave.mk [("user", [])] 5) 10 "user"
     "h" "f" "v" 0 (by decide)).1⟩
